import Mathlib

/-!
Verification development for a two-process web-search bridge:
an HTTP front end (`client/fastapi_client.py`) supervising a worker
subprocess (`server/mcp_server.py`) that calls a search provider
(`server/web_search.py`).

The embedding below translates the Python functions that the properties
are about into executable Lean definitions.  JSON values are modelled by
the inductive `Json`; Python dictionaries by association lists (first
binding wins, as Python dicts have unique keys); raised exceptions by
`Except`/`Option` results.
-/

/-- A JSON value, as produced by parsing a provider or RPC payload. -/
inductive Json where
  | str (s : String)
  | num (n : Int)
  | bool (b : Bool)
  | null
  | arr (elems : List Json)
  | obj (fields : List (String × Json))
deriving Repr

/-- `d.get(key)` on a Python dict modelled as an association list:
the value of the first binding of `key`, if any. -/
def getField : List (String × Json) → String → Option Json
  | [], _ => none
  | (k, v) :: rest, key => if k = key then some v else getField rest key

/-- The Python value is a `str`; returns it.  Any operation that needs a
string (`.startswith`, a pydantic `str` field) raises on other values,
which the per-entry `except` clause turns into a skip. -/
def pyStr? : Json → Option String
  | Json.str s => some s
  | _ => none

/-- Python `s.startswith(pat)` on character lists: `cs` begins with `ps`. -/
def charsStart : List Char → List Char → Bool
  | _, [] => true
  | [], _ :: _ => false
  | c :: cs, p :: ps => c = p && charsStart cs ps

/-- Python `s.startswith(pat)` on strings. -/
def py_startswith (s pat : String) : Bool :=
  charsStart s.data pat.data

/-- `pat in s` (substring containment), used to state that error
messages contain required fragments such as "timed out". -/
def charsContain : List Char → List Char → Bool
  | [], pat => pat.isEmpty
  | c :: cs, pat => charsStart (c :: cs) pat || charsContain cs pat

/-- Substring containment on strings. -/
def strContains (s pat : String) : Bool :=
  charsContain s.data pat.data

/-- `server/models.py` `SearchResult`: a normalized provider result.
`rank` is the 1-based position (`int` in the source). -/
structure SearchResult where
  title : String
  snippet : String
  url : String
  rank : Nat
deriving Repr, DecidableEq

/-- The check `not (not url or not url.startswith(("http://", "https://")))`
of `web_search.py` line 140: the URL is truthy and carries an
http/https scheme. -/
def usableUrl (url : String) : Bool :=
  !(url = "") && (py_startswith url "http://" || py_startswith url "https://")

/-- Field extraction for one entry of the provider's `organic` list,
`web_search.py` lines 133-150.  `title`/`snippet` default to placeholder
text, `link` defaults to `""`; the entry is skipped (`none`) when the
URL check of line 140 fails, and when any step of the construction
raises (non-dict entry, non-string field) — the inner
`except Exception: continue` turns every such failure into a skip. -/
def parseFields (entry : Json) : Option (String × String × String) :=
  match entry with
  | Json.obj fields =>
    let titleJ := (getField fields "title").getD (Json.str "No title")
    let snippetJ := (getField fields "snippet").getD (Json.str "No description")
    let urlJ := (getField fields "link").getD (Json.str "")
    match pyStr? urlJ with
    | none => none
    | some url =>
      if usableUrl url then
        match pyStr? titleJ, pyStr? snippetJ with
        | some title, some snippet => some (title, snippet, url)
        | _, _ => none
      else none
  | _ => none

/-- One loop iteration of `_parse_results` at enumerate index `i`:
the constructed `SearchResult` carries `rank = i + 1`. -/
def parseEntry (i : Nat) (entry : Json) : Option SearchResult :=
  (parseFields entry).map (fun t => ⟨t.1, t.2.1, t.2.2, i + 1⟩)

/-- The `for i, result in enumerate(organic_results)` loop of
`_parse_results`, started at enumerate index `i`. -/
def collectFrom (i : Nat) : List Json → List SearchResult
  | [] => []
  | e :: rest =>
    match parseEntry i e with
    | some r => r :: collectFrom (i + 1) rest
    | none => collectFrom (i + 1) rest

/-- The whole enumerate loop, from index 0. -/
def collectResults (xs : List Json) : List SearchResult :=
  collectFrom 0 xs

/-- `WebSearchTool._parse_results` (`web_search.py` lines 125-159) on a
provider payload `data` (a JSON object, modelled as its field list).
`data.get("organic", [])` defaults a missing field to the empty list,
which passes the `isinstance(list)` check and yields an empty success;
a present non-list field raises `WebSearchError`, re-wrapped by the
outer handler at line 158 (quotes of the source message elided). -/
def parse_results (data : List (String × Json)) : Except String (List SearchResult) :=
  match getField data "organic" with
  | none => Except.ok (collectResults [])
  | some (Json.arr xs) => Except.ok (collectResults xs)
  | some _ =>
    Except.error "Failed to parse search results: Invalid response format: organic field is not a list"

example : parse_results [("not_organic", Json.arr [])] = Except.ok [] := rfl

example :
    parse_results
      [("organic", Json.arr [Json.obj [("link", Json.str "ftp://x")],
        Json.obj [("title", Json.str "B"), ("snippet", Json.str "s"),
          ("link", Json.str "https://b.example")]])] =
      Except.ok [⟨"B", "s", "https://b.example", 2⟩] := rfl

/-!
## The supervisor (`client/fastapi_client.py`, class `MCPClient`)

The supervisor's observable state is the pair of its two mutable
fields: `self.process` (the child process handle, `None` when absent,
modelled by an `Option` over an abstract pid) and `self.is_running`.
Interactions with the operating system — whether `Popen` succeeds,
what `poll()` reports, whether termination signalling raises — are
inputs of each operation.
-/

/-- The two mutable fields of `MCPClient`. -/
structure ClientState where
  process : Option Nat
  is_running : Bool
deriving Repr, DecidableEq

/-- How the termination handshake inside `stop_server` went: graceful
exit within the 5 s grace period, forced kill after the wait timed
out, or `terminate()` itself raising (logged, not propagated). -/
inductive TermOutcome where
  | graceful
  | timedOutKill
  | raised
deriving Repr, DecidableEq

/-- `MCPClient.stop_server` (lines 96-114).  The body runs only under
the guard `if self.process and self.is_running`; when it runs, the
`finally` clause sets `is_running = False` and `process = None` on all
three termination outcomes. -/
def stop_server (o : TermOutcome) (s : ClientState) : ClientState :=
  if s.process.isSome && s.is_running then
    match o with
    | TermOutcome.graceful => { process := none, is_running := false }
    | TermOutcome.timedOutKill => { process := none, is_running := false }
    | TermOutcome.raised => { process := none, is_running := false }
  else s

/-- How `start_server`'s spawn went: `Popen` raised; the child exited
during the 1 s settling sleep (`poll()` non-None); or the child was
still alive after settling. -/
inductive StartOutcome where
  | spawnFail
  | settledDead
  | alive
deriving Repr, DecidableEq

/-- `MCPClient.start_server` (lines 63-94).  A no-op when already
running.  On failure the `except` clause runs `await self.cleanup()`
(which is exactly `stop_server`) and re-raises; on the `settledDead`
path `self.process` has already been assigned the new handle but
`is_running` is still `False`, so `stop_server`'s guard fails.
The termination outcome passed to the cleanup is irrelevant there
and fixed to `graceful`. -/
def start_server (o : StartOutcome) (pid : Nat) (s : ClientState) :
    ClientState × Except String Unit :=
  if s.is_running then (s, Except.ok ())
  else
    match o with
    | StartOutcome.spawnFail =>
      (stop_server TermOutcome.graceful s, Except.error "Failed to start MCP server")
    | StartOutcome.settledDead =>
      (stop_server TermOutcome.graceful { s with process := some pid },
        Except.error "MCP server failed to start")
    | StartOutcome.alive =>
      ({ process := some pid, is_running := true }, Except.ok ())

/-- `MCPClient.check_health` (lines 182-190).  Returns the health
verdict and the (possibly updated) state: when `is_running` and a
process handle are present but the non-blocking `poll()` reports an
exit status (`pollExited`), the failure is recorded by setting
`is_running = False`. -/
def check_health (pollExited : Bool) (s : ClientState) : ClientState × Bool :=
  if !s.is_running || s.process.isNone then (s, false)
  else if pollExited then ({ s with is_running := false }, false)
  else (s, true)

/-- `HealthResponse` of the front end (lines 50-53). -/
structure HealthResponse where
  status : String
  mcp_server_running : Bool
  error : Option String
deriving Repr, DecidableEq

/-- The `/health` handler `health_check` (lines 262-286): reports
healthy exactly when `check_health` returns `True`, and threads the
side effect on the supervisor state through. -/
def health_check (pollExited : Bool) (s : ClientState) : ClientState × HealthResponse :=
  let r := check_health pollExited s
  if r.2 then (r.1, ⟨"healthy", true, none⟩)
  else (r.1, ⟨"unhealthy", false, some "MCP server is not responding"⟩)

/-- One supervisor-affecting event, pairing each operation with the
operating-system observations it depends on.  `call` covers
`call_tool`, which never assigns `is_running` or `process`. -/
inductive Event where
  | start (o : StartOutcome) (pid : Nat)
  | stop (o : TermOutcome)
  | health (pollExited : Bool)
  | call
deriving Repr, DecidableEq

/-- The state transition of one event. -/
def step (s : ClientState) : Event → ClientState
  | Event.start o pid => (start_server o pid s).1
  | Event.stop o => stop_server o s
  | Event.health b => (check_health b s).1
  | Event.call => s

/-- Whether an event is an invocation of `start_server`. -/
def isStartEvent : Event → Bool
  | Event.start _ _ => true
  | _ => false

example :
    (start_server StartOutcome.settledDead 7 ⟨none, false⟩).1 = ⟨some 7, false⟩ := rfl
example : stop_server TermOutcome.raised ⟨some 3, true⟩ = ⟨none, false⟩ := rfl
example : (check_health true ⟨some 3, true⟩) = (⟨some 3, false⟩, false) := rfl

/-!
## `MCPClient.call_tool` (lines 120-171) — response handling

The outcome of the bounded read of one response line from the child's
stdout: the `asyncio.wait_for` timed out; `readline` returned an empty
string (stream closed); the line was not JSON (the decode error text is
carried); or it parsed into a `JSONRPCResponse` with optional `result`
and `error` mappings.  `RuntimeError`s raised inside the `try` body are
re-caught by its own `except Exception` clause and re-wrapped with the
prefix "Error calling MCP tool: "; the `RuntimeError`s raised inside
the `except` clauses (timeout, JSON decode) propagate unwrapped. -/
inductive LineOutcome where
  | timeout
  | emptyLine
  | notJson (decodeErr : String)
  | parsed (result : Option (List (String × Json))) (error : Option (List (String × Json)))
deriving Repr

/-- Python `str(v)` of a JSON value, as interpolated into error
messages.  Only the `str` case is exercised by the proofs below;
composite values get an abridged rendering. -/
def pyStrOf : Json → String
  | Json.str s => s
  | Json.num n => toString n
  | Json.bool true => "True"
  | Json.bool false => "False"
  | Json.null => "None"
  | Json.arr _ => "[...]"
  | Json.obj _ => "[object]"

/-- `response.error.get("message", "Unknown MCP error")` stringified. -/
def errMessage (errF : List (String × Json)) : String :=
  match getField errF "message" with
  | some j => pyStrOf j
  | none => "Unknown MCP error"

/-- The `result`-or-error decision of `call_tool` (lines 147-171) once
a line outcome is fixed.  `self.timeout = 30` is hard-coded in
`__init__`.  A Python `if response.error:` / `if not response.result:`
tests dict truthiness, so an empty mapping behaves like an absent
one. -/
def call_tool_handle : LineOutcome → Except String (List (String × Json))
  | LineOutcome.timeout => Except.error "MCP tool call timed out after 30 seconds"
  | LineOutcome.emptyLine =>
    Except.error "Error calling MCP tool: No response received from MCP server"
  | LineOutcome.notJson e =>
    Except.error ("Invalid JSON response from MCP server: " ++ e)
  | LineOutcome.parsed result err =>
    match err with
    | some errF =>
      if errF.isEmpty then
        match result with
        | none => Except.error "Error calling MCP tool: No result in MCP response"
        | some m =>
          if m.isEmpty then Except.error "Error calling MCP tool: No result in MCP response"
          else Except.ok m
      else Except.error ("Error calling MCP tool: MCP error: " ++ errMessage errF)
    | none =>
      match result with
      | none => Except.error "Error calling MCP tool: No result in MCP response"
      | some m =>
        if m.isEmpty then Except.error "Error calling MCP tool: No result in MCP response"
        else Except.ok m

/-- `call_tool` including its running-state precondition (line 122). -/
def call_tool (s : ClientState) (line : LineOutcome) : Except String (List (String × Json)) :=
  if !s.is_running || s.process.isNone then Except.error "MCP server is not running"
  else call_tool_handle line

/-!
## The `/search` front-end handler (`search_web`, lines 221-260)
-/

/-- `SearchResult` of the front end (lines 37-41): same fields, no URL
validator, `rank : int`. -/
structure SearchResultC where
  title : String
  snippet : String
  url : String
  rank : Int
deriving Repr, DecidableEq

/-- The front end's `SearchResponse` (lines 43-48), with metadata kept
as a JSON object. -/
structure SearchResponseC where
  results : List SearchResultC
  metadata : List (String × Json)
  status : String
  error : Option String
  error_type : Option String
deriving Repr

/-- What the handler replies with: a 200 payload or an
`HTTPException` with a status code and a detail message. -/
inductive SearchHTTP where
  | ok (resp : SearchResponseC)
  | httpError (code : Nat) (detail : String)
deriving Repr

/-- `item["title"]` etc. (lines 233-238): building one front-end
`SearchResult` from a result item.  A missing key (`KeyError`) or a
value pydantic rejects makes the whole handler fall into the
`except Exception` clause; that is the `none` case. -/
def extractItem (j : Json) : Option SearchResultC :=
  match j with
  | Json.obj fs =>
    match getField fs "title", getField fs "snippet", getField fs "url", getField fs "rank" with
    | some (Json.str t), some (Json.str sn), some (Json.str u), some (Json.num r) =>
      some ⟨t, sn, u, r⟩
    | _, _, _, _ => none
  | _ => none

/-- All items of `result.get("results", [])`, or `none` when the field
is not iterable as a list of well-typed items. -/
def extractItems (result : List (String × Json)) : Option (List SearchResultC) :=
  match getField result "results" with
  | none => some []
  | some (Json.arr xs) => xs.mapM extractItem
  | some _ => none

/-- `result.get("metadata", {})`, or `none` when present but not an
object (pydantic then rejects the `Dict` field). -/
def extractMetadata (result : List (String × Json)) : Option (List (String × Json)) :=
  match getField result "metadata" with
  | none => some []
  | some (Json.obj fs) => some fs
  | some _ => none

/-- `result.get("error", "Unknown error")` stringified. -/
def errField (result : List (String × Json)) : String :=
  match getField result "error" with
  | some j => pyStrOf j
  | none => "Unknown error"

/-- `result.get("error_type", "unknown")` stringified. -/
def errTypeField (result : List (String × Json)) : String :=
  match getField result "error_type" with
  | some j => pyStrOf j
  | none => "unknown"

/-- The `/search` handler after the supervisor call completed or
raised: on any exception `e` it raises `HTTPException(500,
"Search failed: " + str(e))`; on a success payload it dispatches on
`result.get("status") == "success"`. -/
def search_web (callRes : Except String (List (String × Json))) : SearchHTTP :=
  match callRes with
  | Except.error e => SearchHTTP.httpError 500 ("Search failed: " ++ e)
  | Except.ok result =>
    match getField result "status" with
    | some (Json.str st) =>
      if st = "success" then
        match extractItems result, extractMetadata result with
        | some items, some md => SearchHTTP.ok ⟨items, md, "success", none, none⟩
        | _, _ => SearchHTTP.httpError 500 "Search failed: malformed result item"
      else
        SearchHTTP.ok ⟨[], [], "error", some (errField result), some (errTypeField result)⟩
    | _ => SearchHTTP.ok ⟨[], [], "error", some (errField result), some (errTypeField result)⟩

/-!
## The worker's `web_search` handler (`server/mcp_server.py`, lines 31-124)

The handler wraps the whole request handling in one `try` whose
`except` ladder matches, in order, `WebSearchTimeoutError`,
`WebSearchAPIError`, `WebSearchError` and `Exception` — a catch-all
over Python's `Exception` hierarchy, so no handler exception escapes
to the RPC loop.  The outcome of handling is modelled by which branch
runs: a successful provider response, or the exception class raised
(with its message).  `unexpected` also covers a failing
`WebSearchRequest` validation, raised inside the same `try`. -/
inductive SearchOutcome where
  | ok (results : List SearchResult) (query : String) (total : Nat) (ms : Int)
  | timeoutErr (msg : String)
  | apiErr (msg : String)
  | searchErr (msg : String)
  | unexpected (msg : String)
deriving Repr

/-- One formatted result dict of the MCP response (lines 62-67). -/
def formatResult (r : SearchResult) : Json :=
  Json.obj [("title", Json.str r.title), ("snippet", Json.str r.snippet),
    ("url", Json.str r.url), ("rank", Json.num r.rank)]

/-- The dictionary the handler returns (lines 70-124).  The float
`response_time_ms` is abstracted to an integer parameter; it plays no
role in any property below. -/
def web_search : SearchOutcome → List (String × Json)
  | SearchOutcome.ok results q total ms =>
    [("results", Json.arr (results.map formatResult)),
     ("metadata", Json.obj [("query", Json.str q), ("total_results", Json.num total),
       ("response_time_ms", Json.num ms), ("api_provider", Json.str "serper")]),
     ("status", Json.str "success")]
  | SearchOutcome.timeoutErr m =>
    [("error", Json.str "Search request timed out"), ("details", Json.str m),
     ("status", Json.str "error"), ("error_type", Json.str "timeout")]
  | SearchOutcome.apiErr m =>
    [("error", Json.str "API error occurred"), ("details", Json.str m),
     ("status", Json.str "error"), ("error_type", Json.str "api_error")]
  | SearchOutcome.searchErr m =>
    [("error", Json.str "Search error occurred"), ("details", Json.str m),
     ("status", Json.str "error"), ("error_type", Json.str "search_error")]
  | SearchOutcome.unexpected _ =>
    [("error", Json.str "Unexpected error occurred"),
     ("details", Json.str "Internal server error"),
     ("status", Json.str "error"), ("error_type", Json.str "internal_error")]

/-- Whether the handling raised (any branch but success). -/
def isErrorOutcome : SearchOutcome → Bool
  | SearchOutcome.ok _ _ _ _ => false
  | _ => true

/-!
## Auxiliary definitions for stating the properties
-/

/-- The ranks of a successful parse, in order (empty on failure). -/
def ranksOf : Except String (List SearchResult) → List Nat
  | Except.ok rs => rs.map (fun r => r.rank)
  | Except.error _ => []

/-- A well-formed `organic` entry in the sense of the spec: a JSON
object whose `title`/`snippet` fields, when present, are strings, and
whose `link` field is a non-empty string starting with `http://` or
`https://` (a usable URL). -/
def wellFormedEntry (e : Json) : Bool :=
  match e with
  | Json.obj fields =>
    (match getField fields "title" with
     | none => true
     | some (Json.str _) => true
     | some _ => false) &&
    (match getField fields "snippet" with
     | none => true
     | some (Json.str _) => true
     | some _ => false) &&
    (match getField fields "link" with
     | some (Json.str u) => usableUrl u
     | _ => false)
  | _ => false

/-- An `organic` list whose first entry lacks a usable URL (an `ftp`
link) and whose second entry is well formed. -/
def c1Organic : List Json :=
  [Json.obj [("title", Json.str "A"), ("link", Json.str "ftp://bad")],
   Json.obj [("title", Json.str "B"), ("snippet", Json.str "s"),
     ("link", Json.str "https://b.example")]]

/-- A provider payload around `c1Organic`. -/
def c1Payload : List (String × Json) := [("organic", Json.arr c1Organic)]

/-- An `organic` list with two well-formed entries (the second uses the
placeholder defaults for `title` and `snippet`). -/
def c8Organic : List Json :=
  [Json.obj [("title", Json.str "A"), ("snippet", Json.str "a"),
     ("link", Json.str "https://a.example")],
   Json.obj [("link", Json.str "http://b.example")]]

/-- A provider payload around `c8Organic`. -/
def c8Payload : List (String × Json) := [("organic", Json.arr c8Organic)]


/-!
## Lemmas about the enumerate loop of `_parse_results`
-/

/-- A kept result at enumerate index `i` carries rank `i + 1`. -/
theorem parseEntry_rank (i : Nat) (e : Json) (r : SearchResult)
    (h : parseEntry i e = some r) : r.rank = i + 1 := by
  cases hf : parseFields e with
  | none => rw [parseEntry, hf] at h; exact absurd h (by simp)
  | some t =>
    rw [parseEntry, hf] at h
    simp only [Option.map_some'] at h
    have h2 := Option.some.inj h
    rw [← h2]

/-- Every element of the loop output starting at index `i` comes from
some original entry at offset `k`, kept by `parseEntry (i + k)`. -/
theorem mem_collectFrom (i : Nat) (xs : List Json) (r : SearchResult)
    (h : r ∈ collectFrom i xs) :
    ∃ k, ∃ hk : k < xs.length, parseEntry (i + k) (xs.get ⟨k, hk⟩) = some r := by
  induction xs generalizing i with
  | nil => exact absurd h (by simp [collectFrom])
  | cons e rest ih =>
    rw [collectFrom] at h
    cases hp : parseEntry i e with
    | none =>
      rw [hp] at h
      obtain ⟨k, hk, hpe⟩ := ih (i + 1) h
      refine ⟨k + 1, by simpa using Nat.succ_lt_succ hk, ?_⟩
      rw [show i + (k + 1) = i + 1 + k by omega]
      exact hpe
    | some r0 =>
      rw [hp] at h
      rcases List.mem_cons.mp h with h0 | h1
      · exact ⟨0, by simp, by rw [Nat.add_zero]; rw [← h0] at hp; exact hp⟩
      · obtain ⟨k, hk, hpe⟩ := ih (i + 1) h1
        refine ⟨k + 1, by simpa using Nat.succ_lt_succ hk, ?_⟩
        rw [show i + (k + 1) = i + 1 + k by omega]
        exact hpe

/-- Every element of the loop output starting at index `i` has rank at
least `i + 1`. -/
theorem collectFrom_rank_lb (i : Nat) (xs : List Json) (r : SearchResult)
    (h : r ∈ collectFrom i xs) : i + 1 ≤ r.rank := by
  obtain ⟨k, hk, hpe⟩ := mem_collectFrom i xs r h
  rw [parseEntry_rank _ _ _ hpe]
  omega

/-- The loop output has strictly increasing ranks. -/
theorem collectFrom_chain (i : Nat) (xs : List Json) :
    List.Chain' (fun a b => a.rank < b.rank) (collectFrom i xs) := by
  induction xs generalizing i with
  | nil => simp [collectFrom]
  | cons e rest ih =>
    rw [collectFrom]
    cases hp : parseEntry i e with
    | none => exact ih (i + 1)
    | some r =>
      rw [List.chain'_cons']
      refine ⟨?_, ih (i + 1)⟩
      intro b hb
      have hbmem : b ∈ collectFrom (i + 1) rest := List.mem_of_mem_head? hb
      have hlb := collectFrom_rank_lb (i + 1) rest b hbmem
      rw [parseEntry_rank _ _ _ hp]
      omega

/-- A kept entry's URL passed the usability check of line 140. -/
theorem parseFields_usable (e : Json) (t : String × String × String)
    (h : parseFields e = some t) : usableUrl t.2.2 = true := by
  cases e with
  | obj fields =>
    rw [parseFields] at h
    split at h
    · exact absurd h (by simp)
    · split at h
      · split at h
        · cases Option.some.inj h
          assumption
        · exact absurd h (by simp)
      · exact absurd h (by simp)
  | str s => exact absurd h (by simp [parseFields])
  | num n => exact absurd h (by simp [parseFields])
  | bool b => exact absurd h (by simp [parseFields])
  | null => exact absurd h (by simp [parseFields])
  | arr elems => exact absurd h (by simp [parseFields])

/-- A usable URL starts with `http://` or `https://`. -/
theorem usableUrl_startswith (u : String) (h : usableUrl u = true) :
    py_startswith u "http://" = true ∨ py_startswith u "https://" = true := by
  rw [usableUrl, Bool.and_eq_true, Bool.or_eq_true] at h
  exact h.2

/-- URL invariant for the whole loop output. -/
theorem collectFrom_url (i : Nat) (xs : List Json) (r : SearchResult)
    (h : r ∈ collectFrom i xs) :
    py_startswith r.url "http://" = true ∨ py_startswith r.url "https://" = true := by
  obtain ⟨k, hk, hpe⟩ := mem_collectFrom i xs r h
  cases hf : parseFields (xs.get ⟨k, hk⟩) with
  | none => rw [parseEntry, hf] at hpe; exact absurd hpe (by simp)
  | some t =>
    rw [parseEntry, hf] at hpe
    simp only [Option.map_some'] at hpe
    have h2 := Option.some.inj hpe
    have hurl : r.url = t.2.2 := by rw [← h2]
    rw [hurl]
    exact usableUrl_startswith _ (parseFields_usable _ t hf)

/-- Whether an optional JSON field is absent or a string. -/
def optStrOk : Option Json → Bool
  | none => true
  | some (Json.str _) => true
  | some _ => false

/-- Whether an optional JSON field is a string holding a usable URL. -/
def linkOk : Option Json → Bool
  | some (Json.str u) => usableUrl u
  | _ => false

/-- An absent-or-string field yields a string after applying the
placeholder default. -/
theorem optStrOk_pyStr (o : Option Json) (d : String) (h : optStrOk o = true) :
    ∃ s, pyStr? (o.getD (Json.str d)) = some s := by
  cases o with
  | none => exact ⟨d, rfl⟩
  | some v =>
    cases v
    case str s => exact ⟨s, rfl⟩
    all_goals simp [optStrOk] at h

/-- A link field passing `linkOk` yields a usable URL string. -/
theorem linkOk_parse (o : Option Json) (h : linkOk o = true) :
    ∃ u, pyStr? (o.getD (Json.str "")) = some u ∧ usableUrl u = true := by
  cases o with
  | none => simp [linkOk] at h
  | some v =>
    cases v
    case str u => exact ⟨u, rfl, h⟩
    all_goals simp [linkOk] at h

/-- A well-formed entry survives `parseFields`. -/
theorem wellFormedEntry_isSome (e : Json) (hwf : wellFormedEntry e = true) :
    (parseFields e).isSome = true := by
  cases e with
  | obj fields =>
    rw [wellFormedEntry] at hwf
    simp only [Bool.and_eq_true] at hwf
    obtain ⟨⟨hT, hS⟩, hL⟩ := hwf
    obtain ⟨u, hu, husable⟩ := linkOk_parse _ hL
    obtain ⟨t, ht⟩ := optStrOk_pyStr _ "No title" hT
    obtain ⟨sn, hsn⟩ := optStrOk_pyStr _ "No description" hS
    rw [parseFields]
    simp [hu, ht, hsn, husable]
  | str s => simp [wellFormedEntry] at hwf
  | num n => simp [wellFormedEntry] at hwf
  | bool b => simp [wellFormedEntry] at hwf
  | null => simp [wellFormedEntry] at hwf
  | arr elems => simp [wellFormedEntry] at hwf

/-- When every entry survives, the loop keeps all of them, in order,
with ranks following the enumerate index. -/
theorem collectFrom_all_some (i : Nat) (xs : List Json)
    (hall : ∀ e ∈ xs, (parseFields e).isSome = true) :
    (collectFrom i xs).length = xs.length ∧
    ∀ k, ∀ hk : k < (collectFrom i xs).length,
      ((collectFrom i xs).get ⟨k, hk⟩).rank = i + k + 1 := by
  induction xs generalizing i with
  | nil =>
    refine ⟨rfl, fun k hk => absurd hk ?_⟩
    simp [collectFrom]
  | cons e rest ih =>
    have he : (parseFields e).isSome = true := hall e (List.mem_cons_self e rest)
    obtain ⟨t, ht⟩ := Option.isSome_iff_exists.mp he
    have hp : parseEntry i e = some ⟨t.1, t.2.1, t.2.2, i + 1⟩ := by
      rw [parseEntry, ht]; rfl
    have hrest := ih (i + 1) (fun x hx => hall x (List.mem_cons_of_mem e hx))
    have hcons : collectFrom i (e :: rest) =
        ⟨t.1, t.2.1, t.2.2, i + 1⟩ :: collectFrom (i + 1) rest := by
      rw [collectFrom, hp]
    constructor
    · rw [hcons]
      simp only [List.length_cons]
      rw [hrest.1]
    · rw [hcons]
      intro k hk
      cases k with
      | zero => simp
      | succ k2 =>
        simp only [List.get_cons_succ]
        have hk2 : k2 < (collectFrom (i + 1) rest).length :=
          Nat.lt_of_succ_lt_succ (by simpa using hk)
        have h3 := hrest.2 k2 hk2
        rw [show (i + (k2 + 1) + 1) = (i + 1) + k2 + 1 by omega]
        exact h3

/-- Inversion of a successful `parse_results` with a list-valued
`organic` field. -/
theorem parse_results_ok (data : List (String × Json)) (xs : List Json)
    (rs : List SearchResult)
    (horg : getField data "organic" = some (Json.arr xs))
    (hok : parse_results data = Except.ok rs) :
    rs = collectResults xs := by
  rw [parse_results] at hok
  split at hok
  · rename_i hnone; rw [horg] at hnone; exact absurd hnone (by simp)
  · rename_i ys harr
    rw [horg] at harr
    have hxs := Json.arr.inj (Option.some.inj harr)
    have h2 := Except.ok.inj hok
    rw [← h2, hxs]
  · rename_i j harr hne
    exact absurd hok (by simp)

/-- C2 (code bug): a provider payload whose `organic` field is absent
is parsed into a successful empty result list rather than raising a
parse error — `data.get("organic", [])` substitutes `[]`, which passes
the list check.  The repository's own test
(`test_error_handling_malformed_response`) sends `{"not_organic": []}`
and asserts an HTTP 500 with "Failed to parse", which this behaviour
contradicts. -/
theorem c2_missing_results_field :
    parse_results [("not_organic", Json.arr [])] = Except.ok [] ∧
    parse_results [] = Except.ok [] :=
  ⟨rfl, rfl⟩

/-- The ranks of a successful parse, in order (empty on failure). -/
theorem ranksOf_ok (rs : List SearchResult) :
    ranksOf (Except.ok rs) = rs.map (fun r => r.rank) := rfl

/-- C1 (counterexample): on a payload whose first `organic` entry has
no usable URL and whose second is well formed, the single surviving
result has rank 2, not rank 1 — the ranks of survivors are not the
contiguous sequence starting at 1 that the claim states. -/
theorem c1_counterexample :
    ranksOf (parse_results c1Payload) = [2] ∧
    ranksOf (parse_results c1Payload) ≠ [1] := by
  refine ⟨rfl, ?_⟩
  intro hcontra
  rw [show ranksOf (parse_results c1Payload) = [2] from rfl] at hcontra
  exact absurd (List.head_eq_of_cons_eq hcontra) (by decide)

/-- C1 (amended): each surviving result keeps the original relative
order (ranks strictly increase along the output) and carries as rank
its 1-based position in the original `organic` list (`index + 1`), so
skipped entries leave gaps instead of the ranks being renumbered to a
contiguous 1..K. -/
theorem c1_ranks_follow_original_index (data : List (String × Json))
    (xs : List Json) (rs : List SearchResult)
    (horg : getField data "organic" = some (Json.arr xs))
    (hok : parse_results data = Except.ok rs) :
    List.Chain' (fun a b => a.rank < b.rank) rs ∧
    ∀ r ∈ rs, ∃ k, ∃ hk : k < xs.length,
      parseEntry k (xs.get ⟨k, hk⟩) = some r ∧ r.rank = k + 1 := by
  have hrs := parse_results_ok data xs rs horg hok
  subst hrs
  constructor
  · exact collectFrom_chain 0 xs
  · intro r hr
    obtain ⟨k, hk, hpe⟩ := mem_collectFrom 0 xs r hr
    rw [Nat.zero_add] at hpe
    exact ⟨k, hk, hpe, parseEntry_rank _ _ _ hpe⟩

/-- Witness for the amended C1 at the concrete payload `c1Payload`. -/
theorem c1_ranks_follow_original_index_witness :
    List.Chain' (fun a b => a.rank < b.rank)
      [({ title := "B", snippet := "s", url := "https://b.example", rank := 2 } : SearchResult)] ∧
    ∀ r ∈ [({ title := "B", snippet := "s", url := "https://b.example", rank := 2 } : SearchResult)],
      ∃ k, ∃ hk : k < c1Organic.length,
        parseEntry k (c1Organic.get ⟨k, hk⟩) = some r ∧ r.rank = k + 1 :=
  c1_ranks_follow_original_index c1Payload c1Organic _ rfl rfl

/-- C8: when every `organic` entry is well formed (string fields where
present, usable http/https link), the parse keeps all `N` entries and
assigns ranks `1..N` in provider order. -/
theorem c8_all_wellformed_ranked (data : List (String × Json))
    (xs : List Json) (rs : List SearchResult)
    (horg : getField data "organic" = some (Json.arr xs))
    (hwf : ∀ e ∈ xs, wellFormedEntry e = true)
    (hok : parse_results data = Except.ok rs) :
    rs.length = xs.length ∧
    ∀ k, ∀ hk : k < rs.length, (rs.get ⟨k, hk⟩).rank = k + 1 := by
  have hrs := parse_results_ok data xs rs horg hok
  subst hrs
  have hall : ∀ e ∈ xs, (parseFields e).isSome = true :=
    fun e he => wellFormedEntry_isSome e (hwf e he)
  obtain ⟨hlen, hget⟩ := collectFrom_all_some 0 xs hall
  refine ⟨hlen, fun k hk => ?_⟩
  show ((collectFrom 0 xs).get ⟨k, hk⟩).rank = k + 1
  rw [hget k hk]
  omega

/-- Witness for C8 at the concrete two-entry payload `c8Payload`. -/
theorem c8_all_wellformed_ranked_witness :
    ([({ title := "A", snippet := "a", url := "https://a.example", rank := 1 } : SearchResult),
      { title := "No title", snippet := "No description", url := "http://b.example", rank := 2 }]).length
        = c8Organic.length ∧
    ∀ k, ∀ hk : k < ([({ title := "A", snippet := "a", url := "https://a.example", rank := 1 } : SearchResult),
      { title := "No title", snippet := "No description", url := "http://b.example", rank := 2 }]).length,
      (([({ title := "A", snippet := "a", url := "https://a.example", rank := 1 } : SearchResult),
        { title := "No title", snippet := "No description", url := "http://b.example", rank := 2 }]).get ⟨k, hk⟩).rank = k + 1 :=
  c8_all_wellformed_ranked c8Payload c8Organic _ rfl (by decide) rfl

/-- C9: every result of a successful parse has a URL starting with
`http://` or `https://`, whatever the payload contained. -/
theorem c9_url_invariant (data : List (String × Json)) (rs : List SearchResult)
    (hok : parse_results data = Except.ok rs) :
    ∀ r ∈ rs, py_startswith r.url "http://" = true ∨ py_startswith r.url "https://" = true := by
  intro r hr
  rw [parse_results] at hok
  split at hok
  · have h2 := Except.ok.inj hok
    rw [← h2] at hr
    exact absurd hr (by simp [collectResults, collectFrom])
  · rename_i ys harr
    have h2 := Except.ok.inj hok
    rw [← h2] at hr
    exact collectFrom_url 0 ys r hr
  · exact absurd hok (by simp)

/-- Witness for C9 at the concrete payload `c1Payload` and its single
surviving result. -/
theorem c9_url_invariant_witness :
    py_startswith "https://b.example" "http://" = true ∨
    py_startswith "https://b.example" "https://" = true :=
  c9_url_invariant c1Payload
    [{ title := "B", snippet := "s", url := "https://b.example", rank := 2 }] rfl
    { title := "B", snippet := "s", url := "https://b.example", rank := 2 }
    (List.mem_cons_self _ _)

/-!
## Supervisor lifecycle properties
-/

/-- C4 (counterexample): on the `start()` error path where the child
is found exited during the settling interval, the cleanup does not
release the process handle — `stop_server`'s guard requires
`is_running`, which was never set, so `process` stays assigned instead
of becoming `none` as the claim states. -/
theorem c4_counterexample :
    (start_server StartOutcome.settledDead 7 ⟨none, false⟩).1.process = some 7 ∧
    (start_server StartOutcome.settledDead 7 ⟨none, false⟩).1.process ≠ none := by
  refine ⟨rfl, ?_⟩
  intro hcontra
  rw [show (start_server StartOutcome.settledDead 7 ⟨none, false⟩).1.process = some 7 from rfl]
    at hcontra
  exact Option.noConfusion hcontra

/-- C4 (amended): stopping a running supervisor (handle present,
`is_running` true) always ends in the stopped state with the handle
released, on all three termination outcomes including a raising
`terminate()`; but the error path of `start()` in which the child
exited during settling leaves `is_running` false while the process
handle remains set, because `stop_server`'s guard skips the cleanup
body when `is_running` is already false. -/
theorem c4_cleanup (s : ClientState) (o : TermOutcome) (pid : Nat)
    (hrun : s.is_running = true) (hp : s.process.isSome = true) :
    stop_server o s = ⟨none, false⟩ ∧
    ∀ t : ClientState, t.is_running = false →
      (start_server StartOutcome.settledDead pid t).1.is_running = false ∧
      (start_server StartOutcome.settledDead pid t).1.process = some pid := by
  constructor
  · obtain ⟨sp, srun⟩ := s
    cases srun with
    | false => exact absurd hrun (by simp)
    | true =>
      cases sp with
      | none => exact absurd hp (by simp)
      | some p => cases o <;> rfl
  · intro t ht
    obtain ⟨tp, trun⟩ := t
    cases trun with
    | true => exact absurd ht (by simp)
    | false =>
      cases tp with
      | none => exact ⟨rfl, rfl⟩
      | some p => exact ⟨rfl, rfl⟩

/-- Witness for the amended C4 at a concrete running state. -/
theorem c4_cleanup_witness :
    stop_server TermOutcome.raised ⟨some 3, true⟩ = ⟨none, false⟩ ∧
    ∀ t : ClientState, t.is_running = false →
      (start_server StartOutcome.settledDead 7 t).1.is_running = false ∧
      (start_server StartOutcome.settledDead 7 t).1.process = some 7 :=
  c4_cleanup ⟨some 3, true⟩ TermOutcome.raised 7 rfl rfl

/-- C7: when the supervisor believes the worker is running and holds a
handle, but the non-blocking poll reports an exit status, the health
check answers false, `/health` reports `mcp_server_running = false`,
and the failure is recorded by clearing `is_running`. -/
theorem c7_crash_observed (s : ClientState)
    (hrun : s.is_running = true) (hp : s.process.isSome = true) :
    (check_health true s).2 = false ∧
    (check_health true s).1.is_running = false ∧
    (health_check true s).2.mcp_server_running = false ∧
    (health_check true s).1.is_running = false := by
  obtain ⟨sp, srun⟩ := s
  cases srun with
  | false => exact absurd hrun (by simp)
  | true =>
    cases sp with
    | none => exact absurd hp (by simp)
    | some p => exact ⟨rfl, rfl, rfl, rfl⟩

/-- Witness for C7 at a concrete running state. -/
theorem c7_crash_observed_witness :
    (check_health true ⟨some 2, true⟩).2 = false ∧
    (check_health true ⟨some 2, true⟩).1.is_running = false ∧
    (health_check true ⟨some 2, true⟩).2.mcp_server_running = false ∧
    (health_check true ⟨some 2, true⟩).1.is_running = false :=
  c7_crash_observed ⟨some 2, true⟩ rfl rfl

/-- A non-start event never turns the running flag on. -/
theorem step_preserves_stopped (s : ClientState) (e : Event)
    (he : isStartEvent e = false) (h0 : s.is_running = false) :
    (step s e).is_running = false := by
  obtain ⟨sp, srun⟩ := s
  cases srun with
  | true => exact absurd h0 (by simp)
  | false =>
    cases e with
    | start o pid => exact absurd he (by simp [isStartEvent])
    | stop o =>
      cases sp with
      | none => rfl
      | some p => rfl
    | health b => rfl
    | call => rfl

/-- A whole trace of non-start events keeps the flag off. -/
theorem trace_preserves_stopped (s : ClientState) (es : List Event)
    (hs : ∀ e ∈ es, isStartEvent e = false) (h0 : s.is_running = false) :
    (es.foldl step s).is_running = false := by
  induction es generalizing s with
  | nil => exact h0
  | cons e rest ih =>
    rw [List.foldl_cons]
    exact ih (step s e)
      (fun x hx => hs x (List.mem_cons_of_mem e hx))
      (step_preserves_stopped s e (hs e (List.mem_cons_self e rest)) h0)

/-- With the flag off, the health check answers false. -/
theorem check_health_stopped (b : Bool) (s : ClientState) (h0 : s.is_running = false) :
    (check_health b s).2 = false := by
  obtain ⟨sp, srun⟩ := s
  cases srun with
  | true => exact absurd h0 (by simp)
  | false => rfl

/-- With the flag off, `/health` reports the server as not running. -/
theorem health_check_stopped (b : Bool) (s : ClientState) (h0 : s.is_running = false) :
    (health_check b s).2.mcp_server_running = false := by
  obtain ⟨sp, srun⟩ := s
  cases srun with
  | true => exact absurd h0 (by simp)
  | false => rfl

/-- A failing start from a stopped state leaves the flag off. -/
theorem start_fail_stopped (o : StartOutcome) (pid : Nat) (s : ClientState)
    (h0 : s.is_running = false) (ho : o ≠ StartOutcome.alive) :
    (start_server o pid s).1.is_running = false := by
  obtain ⟨sp, srun⟩ := s
  cases srun with
  | true => exact absurd h0 (by simp)
  | false =>
    cases o with
    | alive => exact absurd rfl ho
    | spawnFail =>
      cases sp with
      | none => rfl
      | some p => rfl
    | settledDead =>
      cases sp with
      | none => rfl
      | some p => rfl

/-- C10: from a state with the running flag off, any sequence of
non-start events (stops, health checks with any poll outcome, calls)
keeps the flag off, every health check during that time reports the
worker as not running, and the only single event that can turn the
flag on is a start whose liveness poll confirms the child alive. -/
theorem c10_running_flag_monotone (s : ClientState) (h0 : s.is_running = false)
    (es : List Event) (hs : ∀ e ∈ es, isStartEvent e = false) (b : Bool) :
    (es.foldl step s).is_running = false ∧
    (check_health b (es.foldl step s)).2 = false ∧
    (health_check b (es.foldl step s)).2.mcp_server_running = false ∧
    ∀ e : Event, (step s e).is_running = true →
      ∃ pid, e = Event.start StartOutcome.alive pid := by
  have hstop := trace_preserves_stopped s es hs h0
  refine ⟨hstop, check_health_stopped b _ hstop, health_check_stopped b _ hstop, ?_⟩
  intro e hrun
  cases e with
  | start o pid =>
    cases o with
    | alive => exact ⟨pid, rfl⟩
    | spawnFail =>
      have hrun2 : (start_server StartOutcome.spawnFail pid s).1.is_running = true := hrun
      rw [start_fail_stopped StartOutcome.spawnFail pid s h0 (by decide)] at hrun2
      exact absurd hrun2 (by simp)
    | settledDead =>
      have hrun2 : (start_server StartOutcome.settledDead pid s).1.is_running = true := hrun
      rw [start_fail_stopped StartOutcome.settledDead pid s h0 (by decide)] at hrun2
      exact absurd hrun2 (by simp)
  | stop o =>
    have h2 := step_preserves_stopped s (Event.stop o) rfl h0
    rw [h2] at hrun
    exact absurd hrun (by simp)
  | health b2 =>
    have h2 := step_preserves_stopped s (Event.health b2) rfl h0
    rw [h2] at hrun
    exact absurd hrun (by simp)
  | call =>
    have h2 := step_preserves_stopped s Event.call rfl h0
    rw [h2] at hrun
    exact absurd hrun (by simp)

/-- Witness for C10: a stopped state with a stale handle, followed by
a crash-observing health check, a stop and a call. -/
theorem c10_running_flag_monotone_witness :
    (([Event.health true, Event.stop TermOutcome.graceful, Event.call].foldl step
      ⟨some 1, false⟩).is_running = false) ∧
    (check_health true ([Event.health true, Event.stop TermOutcome.graceful, Event.call].foldl
      step ⟨some 1, false⟩)).2 = false ∧
    (health_check true ([Event.health true, Event.stop TermOutcome.graceful, Event.call].foldl
      step ⟨some 1, false⟩)).2.mcp_server_running = false ∧
    ∀ e : Event, (step ⟨some 1, false⟩ e).is_running = true →
      ∃ pid, e = Event.start StartOutcome.alive pid :=
  c10_running_flag_monotone ⟨some 1, false⟩ rfl
    [Event.health true, Event.stop TermOutcome.graceful, Event.call] (by decide) true

/-!
## RPC response handling properties
-/

/-- C3 (counterexample): a parsed JSON-RPC response with an empty
`result` mapping and no error is rejected with the no-result protocol
error instead of being returned — `if not response.result` treats the
empty dict as absent. -/
theorem c3_counterexample :
    call_tool_handle (LineOutcome.parsed (some []) none) =
      Except.error "Error calling MCP tool: No result in MCP response" ∧
    ∀ m : List (String × Json),
      call_tool_handle (LineOutcome.parsed (some []) none) ≠ Except.ok m := by
  refine ⟨rfl, ?_⟩
  intro m hcontra
  rw [show call_tool_handle (LineOutcome.parsed (some []) none) =
      Except.error "Error calling MCP tool: No result in MCP response" from rfl] at hcontra
  exact Except.noConfusion hcontra

/-- C3 (amended): with no non-empty error field, the call returns the
`result` mapping only when it is present and non-empty; it fails with
the no-result protocol error both when `result` is absent and when it
is the empty mapping. -/
theorem c3_result_requires_nonempty (result : Option (List (String × Json)))
    (err : Option (List (String × Json))) (herr : err = none ∨ err = some []) :
    (∀ m, result = some m → m ≠ [] →
      call_tool_handle (LineOutcome.parsed result err) = Except.ok m) ∧
    ((result = none ∨ result = some []) →
      call_tool_handle (LineOutcome.parsed result err) =
        Except.error "Error calling MCP tool: No result in MCP response") := by
  have hred : call_tool_handle (LineOutcome.parsed result err) =
      (match result with
       | none =>
         Except.error "Error calling MCP tool: No result in MCP response"
       | some m =>
         if m.isEmpty then Except.error "Error calling MCP tool: No result in MCP response"
         else Except.ok m) := by
    rcases herr with h | h <;> subst h <;> rfl
  constructor
  · intro m hm hne
    subst hm
    have hne2 : m.isEmpty = false := by
      cases m with
      | nil => exact absurd rfl hne
      | cons a l => rfl
    rw [hred]
    show (if m.isEmpty = true then
        (Except.error "Error calling MCP tool: No result in MCP response" :
          Except String (List (String × Json)))
      else Except.ok m) = Except.ok m
    rw [hne2]
    rfl
  · intro hres
    rw [hred]
    rcases hres with h | h <;> subst h <;> rfl

/-- Witness for the amended C3 at a concrete non-empty result. -/
theorem c3_result_requires_nonempty_witness :
    (∀ m, (some [("status", Json.str "ok")] : Option (List (String × Json))) = some m →
      m ≠ [] →
      call_tool_handle (LineOutcome.parsed (some [("status", Json.str "ok")]) none) =
        Except.ok m) ∧
    (((some [("status", Json.str "ok")] : Option (List (String × Json))) = none ∨
        (some [("status", Json.str "ok")] : Option (List (String × Json))) = some []) →
      call_tool_handle (LineOutcome.parsed (some [("status", Json.str "ok")]) none) =
        Except.error "Error calling MCP tool: No result in MCP response") :=
  c3_result_requires_nonempty (some [("status", Json.str "ok")]) none (Or.inl rfl)

/-- C6: a timed-out read makes `call_tool` fail with the message
"MCP tool call timed out after 30 seconds" (which contains
"timed out"), and the `/search` handler maps that failure to an HTTP
500 whose detail also contains "timed out". -/
theorem c6_timeout_to_http500 :
    call_tool_handle LineOutcome.timeout =
      Except.error "MCP tool call timed out after 30 seconds" ∧
    strContains "MCP tool call timed out after 30 seconds" "timed out" = true ∧
    search_web (call_tool_handle LineOutcome.timeout) =
      SearchHTTP.httpError 500 "Search failed: MCP tool call timed out after 30 seconds" ∧
    strContains "Search failed: MCP tool call timed out after 30 seconds" "timed out" = true := by
  refine ⟨rfl, by decide, ?_, by decide⟩
  rfl

/-- C5: every exception branch of the worker's `web_search` handler
(timeout, API error, other provider error, unexpected) is converted
into a returned error dictionary carrying an error message, an
`error_type` kind, details, and the error status — the handler is a
total function of the handling outcome, so no exception escapes to
the RPC loop. -/
theorem c5_handler_catches_all (o : SearchOutcome) (h : isErrorOutcome o = true) :
    ∃ msg kind details,
      getField (web_search o) "error" = some (Json.str msg) ∧
      getField (web_search o) "error_type" = some (Json.str kind) ∧
      getField (web_search o) "details" = some (Json.str details) ∧
      getField (web_search o) "status" = some (Json.str "error") := by
  cases o with
  | ok results q total ms => exact absurd h (by simp [isErrorOutcome])
  | timeoutErr m =>
    exact ⟨"Search request timed out", "timeout", m, rfl, rfl, rfl, rfl⟩
  | apiErr m =>
    exact ⟨"API error occurred", "api_error", m, rfl, rfl, rfl, rfl⟩
  | searchErr m =>
    exact ⟨"Search error occurred", "search_error", m, rfl, rfl, rfl, rfl⟩
  | unexpected m =>
    exact ⟨"Unexpected error occurred", "internal_error", "Internal server error",
      rfl, rfl, rfl, rfl⟩

/-- Witness for C5 at a concrete timeout outcome. -/
theorem c5_handler_catches_all_witness :
    ∃ msg kind details,
      getField (web_search (SearchOutcome.timeoutErr "upstream slow")) "error" =
        some (Json.str msg) ∧
      getField (web_search (SearchOutcome.timeoutErr "upstream slow")) "error_type" =
        some (Json.str kind) ∧
      getField (web_search (SearchOutcome.timeoutErr "upstream slow")) "details" =
        some (Json.str details) ∧
      getField (web_search (SearchOutcome.timeoutErr "upstream slow")) "status" =
        some (Json.str "error") :=
  c5_handler_catches_all (SearchOutcome.timeoutErr "upstream slow") rfl
